import Mathlib

set_option genSizeOf false
set_option genSizeOfSpec false
set_option genInjectivity false

/-!
Verification of the AM modem core and its example driver
(`examples/ampmodem_example.c`).

The repository ships only the driver; the ampmodem core itself
(`ampmodem_create`, `ampmodem_modulate`, `ampmodem_demodulate`) is part of
the library the driver links against and is not in the source tree.  The
core is therefore modelled from the specification, with each such
definition marked `Modelled from the spec:`.  The driver-side computations
(option handling, sample clipping, delay compensation) are translated
directly from `ampmodem_example.c`.

Floating-point samples are modelled as real numbers; float round-trip
claims stated "up to floating-point tolerance" become exact equalities over
ℝ.
-/

/-- Sideband type of the AM modem, mirroring `liquid_ampmodem_type`
(`LIQUID_AMPMODEM_DSB` / `LIQUID_AMPMODEM_USB` / `LIQUID_AMPMODEM_LSB`). -/
inductive AmType where
  | DSB
  | USB
  | LSB
deriving DecidableEq

/-- A complex passband sample (`liquid_float_complex`), modelled as a pair
of real numbers. -/
structure CSample where
  re : ℝ
  im : ℝ

/-- Magnitude (envelope) of a complex sample. -/
noncomputable def CSample.mag (y : CSample) : ℝ :=
  Real.sqrt (y.re ^ 2 + y.im ^ 2)

/-- Modelled from the spec: the configuration shared by modulator and
demodulator — `modulationIndex` (0 < m ≤ 1), `carrierOffset` (documentation
of the external channel offset, unused by the per-sample math),
`sidebandType`, and the `suppressedCarrier` flag. -/
structure ModemConfig where
  modulationIndex : ℝ
  carrierOffset : ℝ
  sidebandType : AmType
  suppressedCarrier : Bool

/-- Modelled from the spec: the quadrature (Hilbert-type) filter shared by
modulator and demodulator for single-sideband processing — a fixed-length
symmetric finite-impulse filter (`taps`) with a delay line (`window`,
newest sample first).  The filter taps are an implementation parameter the
spec leaves open, so they are carried as data. -/
structure QuadFilter where
  taps : List ℝ
  window : List ℝ

/-- Push one input sample into the quadrature filter's delay line. -/
def QuadFilter.push (f : QuadFilter) (v : ℝ) : QuadFilter :=
  { f with window := (v :: f.window).take f.taps.length }

/-- Finite-impulse output of the quadrature filter: dot product of the taps
with the delay line. -/
noncomputable def QuadFilter.fir (f : QuadFilter) : ℝ :=
  (List.zipWith (· * ·) f.taps f.window).sum

/-- Centre tap of the delay line: the in-phase branch delayed by the
filter's group delay (N−1)/2 for odd length N. -/
noncomputable def QuadFilter.center (f : QuadFilter) : ℝ :=
  f.window.getD (f.taps.length / 2) 0

/-- Modelled from the spec: mutable per-instance state — quadrature-filter
state plus the carrier-tracking phase accumulator and frequency estimate
(the latter two used by the suppressed-carrier demodulator). -/
structure ModemState where
  qf : QuadFilter
  phase : ℝ
  freq : ℝ

/-- Modelled from the spec: freshly created state — quadrature-filter delay
line, phase accumulator and frequency estimate all zero. -/
def initState (taps : List ℝ) : ModemState :=
  { qf := { taps := taps, window := List.replicate taps.length 0 }
    phase := 0
    freq := 0 }

/-- Creation failure: `modulationIndex` outside (0,1]. -/
inductive CreateError where
  | InvalidParameter

/-- A created modem object: its immutable configuration plus its state. -/
structure Modem where
  cfg : ModemConfig
  st : ModemState

/-- Modelled from the spec: `ampmodem_create` — validates that
`modulationIndex` is in (0,1], failing with `InvalidParameter` otherwise
(no partial object), and on success returns an object with zeroed
quadrature-filter state and phase accumulator.  `taps` is the
implementation-chosen quadrature-filter design. -/
noncomputable def ampmodem_create (taps : List ℝ) (cfg : ModemConfig) :
    Except CreateError Modem :=
  if 0 < cfg.modulationIndex ∧ cfg.modulationIndex ≤ 1 then
    Except.ok { cfg := cfg, st := initState taps }
  else
    Except.error CreateError.InvalidParameter

/-- Modelled from the spec: proportional gain of the suppressed-carrier
phase-tracking loop (bounded loop bandwidth). -/
noncomputable def pllAlpha : ℝ := 1 / 20

/-- Modelled from the spec: integral gain of the suppressed-carrier
phase-tracking loop (bounded loop bandwidth). -/
noncomputable def pllBeta : ℝ := 1 / 1000

/-- Modelled from the spec: `ampmodem_modulate` — one real sample in, one
complex sample out, advancing the state by exactly one sample.
Double-sideband: `y = 1 + m·x` if the carrier is not suppressed, else
`y = m·x`, purely real.  Single-sideband: the analytic signal of `m·x`
(plus a DC carrier term on the real branch when not suppressed) built with
the quadrature filter, combined as `y = I ± j·Q` (+ selects the upper
sideband, − the lower). -/
noncomputable def ampmodem_modulate (cfg : ModemConfig) (st : ModemState)
    (x : ℝ) : CSample × ModemState :=
  let m := cfg.modulationIndex
  match cfg.sidebandType with
  | AmType.DSB =>
      (⟨if cfg.suppressedCarrier then m * x else 1 + m * x, 0⟩, st)
  | AmType.USB =>
      let v := m * x + (if cfg.suppressedCarrier then 0 else 1)
      let qf := st.qf.push v
      (⟨qf.center, qf.fir⟩, { st with qf := qf })
  | AmType.LSB =>
      let v := m * x + (if cfg.suppressedCarrier then 0 else 1)
      let qf := st.qf.push v
      (⟨qf.center, -qf.fir⟩, { st with qf := qf })

/-- Modelled from the spec: `ampmodem_demodulate` — one complex sample in,
one real sample out.  Double-sideband with carrier: envelope detection,
`z = (|y| − 1)/m` (DC removed using the known unsuppressed-carrier offset,
divided by `m`), delay-free.  Double-sideband suppressed: coherent
detection with a proportional-integral carrier-phase tracking loop,
`z = Re(y·e^{−jθ})/m`.  Single-sideband: recombine the received sample
with its own quadrature-filtered copy to cancel the image, remove the
carrier DC term when present, and rescale by `m`. -/
noncomputable def ampmodem_demodulate (cfg : ModemConfig) (st : ModemState)
    (y : CSample) : ℝ × ModemState :=
  let m := cfg.modulationIndex
  match cfg.sidebandType, cfg.suppressedCarrier with
  | AmType.DSB, false =>
      ((y.mag - 1) / m, st)
  | AmType.DSB, true =>
      let c := Real.cos st.phase
      let s := Real.sin st.phase
      let vre := y.re * c + y.im * s
      let vim := y.im * c - y.re * s
      let err := vim * (if vre < 0 then -1 else 1)
      let freq := st.freq + pllBeta * err
      let phase := st.phase + freq + pllAlpha * err
      (vre / m, { st with phase := phase, freq := freq })
  | AmType.USB, _ =>
      let qf := st.qf.push y.re
      (((qf.center + qf.fir) - (if cfg.suppressedCarrier then 0 else 1)) / m,
        { st with qf := qf })
  | AmType.LSB, _ =>
      let qf := st.qf.push y.re
      (((qf.center - qf.fir) - (if cfg.suppressedCarrier then 0 else 1)) / m,
        { st with qf := qf })

/-- Run the modulator over a whole input stream, one call per sample,
threading the state (structural recursion over the stream). -/
noncomputable def runModulate (cfg : ModemConfig) (st : ModemState)
    (xs : List ℝ) : List CSample × ModemState :=
  @List.rec ℝ (fun _ => ModemState → List CSample × ModemState)
    (fun s => ([], s))
    (fun x _ ih s =>
      let p := ampmodem_modulate cfg s x
      let q := ih p.2
      (p.1 :: q.1, q.2))
    xs st

/-- Run the demodulator over a whole input stream, one call per sample,
threading the state (structural recursion over the stream). -/
noncomputable def runDemodulate (cfg : ModemConfig) (st : ModemState)
    (ys : List CSample) : List ℝ × ModemState :=
  @List.rec CSample (fun _ => ModemState → List ℝ × ModemState)
    (fun s => ([], s))
    (fun y _ ih s =>
      let p := ampmodem_demodulate cfg s y
      let q := ih p.2
      (p.1 :: q.1, q.2))
    ys st

/-! ## Driver-side definitions, translated from `ampmodem_example.c` -/

/-- Driver delay compensation, line 113:
`unsigned int delay = (type == LIQUID_AMPMODEM_DSB) ? 0 : 18;`
modelled as a function of the two sideband options in scope in `main`
(the expression reads only `type`). -/
def driver_delay (type : AmType) (_suppressed : Bool) : ℕ :=
  if type = AmType.DSB then 0 else 18

/-- Driver baseband synthesis, lines 84–90: each sample is the lowpass
`iirfilt` output (external library code, abstracted as the stream `w`)
clipped through `tanhf`: `x[i] = tanhf(x[i])`. -/
noncomputable def driver_x (w : ℕ → ℝ) (i : ℕ) : ℝ :=
  Real.tanh (w i)

/-- Driver handling of the `-t` option, lines 53–64: `"dsb"`, `"usb"` and
`"lsb"` select the corresponding `liquid_ampmodem_type`; any other argument
makes `main` print an error to stderr and return exit status 1 (before any
`ampmodem_create` call). -/
def handle_type_option (s : String) : Except ℕ AmType :=
  if s = "dsb" then Except.ok AmType.DSB
  else if s = "usb" then Except.ok AmType.USB
  else if s = "lsb" then Except.ok AmType.LSB
  else Except.error 1

/-! ## Theorems -/

theorem runModulate_cons (cfg : ModemConfig) (st : ModemState) (x : ℝ)
    (xs : List ℝ) :
    runModulate cfg st (x :: xs) =
      ((ampmodem_modulate cfg st x).1 ::
        (runModulate cfg (ampmodem_modulate cfg st x).2 xs).1,
       (runModulate cfg (ampmodem_modulate cfg st x).2 xs).2) := rfl

theorem runDemodulate_cons (cfg : ModemConfig) (st : ModemState) (y : CSample)
    (ys : List CSample) :
    runDemodulate cfg st (y :: ys) =
      ((ampmodem_demodulate cfg st y).1 ::
        (runDemodulate cfg (ampmodem_demodulate cfg st y).2 ys).1,
       (runDemodulate cfg (ampmodem_demodulate cfg st y).2 ys).2) := rfl

theorem dsb_unsup_mod_step (cfg : ModemConfig) (st : ModemState) (x : ℝ)
    (ht : cfg.sidebandType = AmType.DSB) (hs : cfg.suppressedCarrier = false) :
    ampmodem_modulate cfg st x = (⟨1 + cfg.modulationIndex * x, 0⟩, st) := by
  obtain ⟨m, o, t, sc⟩ := cfg
  dsimp only at ht hs ⊢
  subst ht; subst hs
  rfl

theorem dsb_unsup_demod_step (cfg : ModemConfig) (st2 : ModemState) (x : ℝ)
    (ht : cfg.sidebandType = AmType.DSB) (hs : cfg.suppressedCarrier = false)
    (hm0 : 0 < cfg.modulationIndex) (hm1 : cfg.modulationIndex ≤ 1)
    (hx : |x| ≤ 1) :
    ampmodem_demodulate cfg st2 ⟨1 + cfg.modulationIndex * x, 0⟩ = (x, st2) := by
  obtain ⟨m, o, t, sc⟩ := cfg
  dsimp only at ht hs hm0 hm1 ⊢
  subst ht; subst hs
  have hxl : -1 ≤ x := (abs_le.mp hx).1
  have hnn : (0 : ℝ) ≤ 1 + m * x := by
    have h1 : m * (-1) ≤ m * x := mul_le_mul_of_nonneg_left hxl hm0.le
    rw [mul_neg_one] at h1
    linarith
  have hmag : CSample.mag ⟨1 + m * x, 0⟩ = 1 + m * x := by
    unfold CSample.mag
    dsimp only
    rw [show (1 + m * x) ^ 2 + (0 : ℝ) ^ 2 = (1 + m * x) ^ 2 by ring,
      Real.sqrt_sq hnn]
  show ((CSample.mag ⟨1 + m * x, 0⟩ - 1) / m, st2) = (x, st2)
  rw [hmag, add_sub_cancel_left, mul_div_cancel_left₀ x (ne_of_gt hm0)]

/-- C1: for every valid modulation index m in (0,1] and a matched
double-sideband, carrier-present modulator/demodulator pair, feeding any
bounded real stream through Modulate then Demodulate (no noise, no carrier
offset) returns the original stream with zero sample delay — exactly, in
the real-number model of the floating-point arithmetic. -/
theorem c1_dsb_unsuppressed_roundtrip (cfg : ModemConfig)
    (st st2 : ModemState) (xs : List ℝ)
    (ht : cfg.sidebandType = AmType.DSB)
    (hs : cfg.suppressedCarrier = false)
    (hm0 : 0 < cfg.modulationIndex) (hm1 : cfg.modulationIndex ≤ 1)
    (hb : ∀ x ∈ xs, |x| ≤ 1) :
    (runDemodulate cfg st2 (runModulate cfg st xs).1).1 = xs := by
  induction xs generalizing st st2 with
  | nil => rfl
  | cons x xs ih =>
    have hbx : |x| ≤ 1 := hb x (List.mem_cons_self x xs)
    have hb' : ∀ a ∈ xs, |a| ≤ 1 := fun a ha => hb a (List.mem_cons_of_mem x ha)
    rw [runModulate_cons, dsb_unsup_mod_step cfg st x ht hs]
    dsimp only
    rw [runDemodulate_cons, dsb_unsup_demod_step cfg st2 x ht hs hm0 hm1 hbx]
    dsimp only
    rw [ih st st2 hb']

/-- Witness for C1 at m = 1/2, input stream [1, −1]. -/
theorem c1_dsb_unsuppressed_roundtrip_witness :
    (runDemodulate ⟨1/2, 0, AmType.DSB, false⟩ (initState [])
      (runModulate ⟨1/2, 0, AmType.DSB, false⟩ (initState [])
        [(1 : ℝ), -1]).1).1 = [(1 : ℝ), -1] :=
  c1_dsb_unsuppressed_roundtrip ⟨1/2, 0, AmType.DSB, false⟩ (initState [])
    (initState []) [(1 : ℝ), -1] rfl rfl (by norm_num) (by norm_num)
    (by intro a ha
        rcases List.mem_cons.mp ha with h | h
        · rw [h, abs_one]
        · rw [List.mem_singleton] at h
          rw [h, abs_neg, abs_one])

/-- C3: double-sideband modulation is `y = 1 + m·x` when the carrier is
present and `y = m·x` when it is suppressed, always with imaginary part
exactly zero; in particular with m = 1/10, carrier present, and any
alternating input value x ∈ {1, −1}, the output is exactly 1 + (1/10)·x. -/
theorem c3_dsb_modulate_formula (cfg : ModemConfig) (st : ModemState) (x : ℝ)
    (ht : cfg.sidebandType = AmType.DSB) :
    (ampmodem_modulate cfg st x).1 =
      ⟨if cfg.suppressedCarrier then cfg.modulationIndex * x
        else 1 + cfg.modulationIndex * x, 0⟩ ∧
    (ampmodem_modulate cfg st x).1.im = 0 ∧
    (cfg.modulationIndex = 1/10 → cfg.suppressedCarrier = false →
      (x = 1 ∨ x = -1) →
      (ampmodem_modulate cfg st x).1 = ⟨1 + (1/10) * x, 0⟩) := by
  obtain ⟨m, o, t, sc⟩ := cfg
  dsimp only at ht ⊢
  subst ht
  refine ⟨rfl, rfl, ?_⟩
  intro hm hsup _hx
  subst hm; subst hsup
  rfl

/-- Witness for C3 at m = 1/10, carrier present, x = 1. -/
theorem c3_dsb_modulate_formula_witness :
    (ampmodem_modulate ⟨1/10, 0, AmType.DSB, false⟩ (initState []) 1).1 =
      ⟨1 + (1/10 : ℝ) * 1, 0⟩ :=
  (c3_dsb_modulate_formula ⟨1/10, 0, AmType.DSB, false⟩ (initState []) 1
    rfl).2.2 rfl rfl (Or.inl rfl)

/-- C4: creation fails with `InvalidParameter` exactly when the modulation
index lies outside (0,1], returning no partial object; inside (0,1] it
succeeds, and the freshly created object has quadrature-filter delay line,
phase accumulator and frequency estimate all zero. -/
theorem c4_create_validation (taps : List ℝ) (cfg : ModemConfig) :
    (ampmodem_create taps cfg = Except.error CreateError.InvalidParameter ↔
      ¬(0 < cfg.modulationIndex ∧ cfg.modulationIndex ≤ 1)) ∧
    (0 < cfg.modulationIndex ∧ cfg.modulationIndex ≤ 1 →
      ampmodem_create taps cfg = Except.ok ⟨cfg, initState taps⟩) ∧
    (initState taps).qf.window = List.replicate taps.length 0 ∧
    (initState taps).phase = 0 ∧ (initState taps).freq = 0 := by
  refine ⟨⟨?_, ?_⟩, ?_, rfl, rfl, rfl⟩
  · intro he h
    unfold ampmodem_create at he
    rw [if_pos h] at he
    exact Except.noConfusion he
  · intro hn
    unfold ampmodem_create
    rw [if_neg hn]
  · intro h
    unfold ampmodem_create
    rw [if_pos h]

/-- Witness for C4 at m = 1/2 (success case). -/
theorem c4_create_validation_witness :
    ampmodem_create [] ⟨1/2, 0, AmType.DSB, false⟩ =
      Except.ok ⟨⟨1/2, 0, AmType.DSB, false⟩, initState []⟩ :=
  (c4_create_validation [] ⟨1/2, 0, AmType.DSB, false⟩).2.1
    ⟨by norm_num, by norm_num⟩

/-- C5: Modulate and Demodulate are deterministic — two calls with the same
configuration, the same prior state and the same input sample produce the
same output sample and the same successor state. -/
theorem c5_deterministic (cfg₁ cfg₂ : ModemConfig) (st₁ st₂ : ModemState)
    (x₁ x₂ : ℝ) (y₁ y₂ : CSample)
    (hc : cfg₁ = cfg₂) (hs : st₁ = st₂) (hx : x₁ = x₂) (hy : y₁ = y₂) :
    ampmodem_modulate cfg₁ st₁ x₁ = ampmodem_modulate cfg₂ st₂ x₂ ∧
    ampmodem_demodulate cfg₁ st₁ y₁ = ampmodem_demodulate cfg₂ st₂ y₂ := by
  subst hc; subst hs; subst hx; subst hy
  exact ⟨rfl, rfl⟩

/-- Witness for C5 at a concrete configuration, state and inputs. -/
theorem c5_deterministic_witness :
    ampmodem_modulate ⟨1/2, 0, AmType.USB, true⟩ (initState [1, 0, -1]) 1 =
      ampmodem_modulate ⟨1/2, 0, AmType.USB, true⟩ (initState [1, 0, -1]) 1 ∧
    ampmodem_demodulate ⟨1/2, 0, AmType.USB, true⟩ (initState [1, 0, -1])
        ⟨1, 1⟩ =
      ampmodem_demodulate ⟨1/2, 0, AmType.USB, true⟩ (initState [1, 0, -1])
        ⟨1, 1⟩ :=
  c5_deterministic _ _ _ _ _ _ _ _ rfl rfl rfl rfl

/-- C6: each Modulate/Demodulate call consumes exactly one input sample and
produces exactly one output sample, so stepping the component over an
n-sample stream yields exactly n output samples. -/
theorem c6_one_in_one_out (cfg : ModemConfig) (st st2 : ModemState)
    (xs : List ℝ) (ys : List CSample) :
    (runModulate cfg st xs).1.length = xs.length ∧
    (runDemodulate cfg st2 ys).1.length = ys.length := by
  constructor
  · induction xs generalizing st with
    | nil => rfl
    | cons x xs ih =>
      rw [runModulate_cons]
      show (runModulate cfg (ampmodem_modulate cfg st x).2 xs).1.length + 1
        = xs.length + 1
      rw [ih]
  · induction ys generalizing st2 with
    | nil => rfl
    | cons y ys ih =>
      rw [runDemodulate_cons]
      show (runDemodulate cfg (ampmodem_demodulate cfg st2 y).2 ys).1.length + 1
        = ys.length + 1
      rw [ih]

theorem modulate_carrier_offset_irrelevant (c₁ c₂ : ModemConfig)
    (hm : c₁.modulationIndex = c₂.modulationIndex)
    (ht : c₁.sidebandType = c₂.sidebandType)
    (hs : c₁.suppressedCarrier = c₂.suppressedCarrier)
    (st : ModemState) (x : ℝ) :
    ampmodem_modulate c₁ st x = ampmodem_modulate c₂ st x := by
  obtain ⟨m₁, o₁, t₁, s₁⟩ := c₁
  obtain ⟨m₂, o₂, t₂, s₂⟩ := c₂
  dsimp only at hm ht hs
  subst hm; subst ht; subst hs
  rfl

theorem demodulate_carrier_offset_irrelevant (c₁ c₂ : ModemConfig)
    (hm : c₁.modulationIndex = c₂.modulationIndex)
    (ht : c₁.sidebandType = c₂.sidebandType)
    (hs : c₁.suppressedCarrier = c₂.suppressedCarrier)
    (st : ModemState) (y : CSample) :
    ampmodem_demodulate c₁ st y = ampmodem_demodulate c₂ st y := by
  obtain ⟨m₁, o₁, t₁, s₁⟩ := c₁
  obtain ⟨m₂, o₂, t₂, s₂⟩ := c₂
  dsimp only at hm ht hs
  subst hm; subst ht; subst hs
  rfl

/-- C7: the `carrierOffset` configuration field does not influence the
per-sample computation — two configurations differing only in
`carrierOffset` produce identical Modulate and Demodulate output streams
from any state and input stream. -/
theorem c7_carrier_offset_unused (c₁ c₂ : ModemConfig)
    (hm : c₁.modulationIndex = c₂.modulationIndex)
    (ht : c₁.sidebandType = c₂.sidebandType)
    (hs : c₁.suppressedCarrier = c₂.suppressedCarrier)
    (st st2 : ModemState) (xs : List ℝ) (ys : List CSample) :
    runModulate c₁ st xs = runModulate c₂ st xs ∧
    runDemodulate c₁ st2 ys = runDemodulate c₂ st2 ys := by
  constructor
  · induction xs generalizing st with
    | nil => rfl
    | cons x xs ih =>
      rw [runModulate_cons, runModulate_cons,
        modulate_carrier_offset_irrelevant c₁ c₂ hm ht hs st x, ih]
  · induction ys generalizing st2 with
    | nil => rfl
    | cons y ys ih =>
      rw [runDemodulate_cons, runDemodulate_cons,
        demodulate_carrier_offset_irrelevant c₁ c₂ hm ht hs st2 y, ih]

/-- Witness for C7: two configurations differing only in `carrierOffset`
(0 versus 1/50) on a concrete stream. -/
theorem c7_carrier_offset_unused_witness :
    runModulate ⟨1/2, 0, AmType.LSB, false⟩ (initState [1, 0, -1]) [1, -1] =
      runModulate ⟨1/2, 1/50, AmType.LSB, false⟩ (initState [1, 0, -1])
        [1, -1] ∧
    runDemodulate ⟨1/2, 0, AmType.LSB, false⟩ (initState [1, 0, -1])
        [⟨1, 0⟩] =
      runDemodulate ⟨1/2, 1/50, AmType.LSB, false⟩ (initState [1, 0, -1])
        [⟨1, 0⟩] :=
  c7_carrier_offset_unused ⟨1/2, 0, AmType.LSB, false⟩
    ⟨1/2, 1/50, AmType.LSB, false⟩ rfl rfl rfl _ _ _ _

/-- C8: the delay the driver compensates (line 113) reads only the sideband
type, never the suppressed-carrier flag: it is 0 for DoubleSideband under
either flag value and 18 for UpperSideband and LowerSideband under either
flag value. -/
theorem c8_driver_delay_by_type :
    (∀ (t : AmType) (s₁ s₂ : Bool), driver_delay t s₁ = driver_delay t s₂) ∧
    (∀ s : Bool, driver_delay AmType.DSB s = 0 ∧
      driver_delay AmType.USB s = 18 ∧ driver_delay AmType.LSB s = 18) := by
  constructor
  · intro t s₁ s₂; rfl
  · intro s; exact ⟨rfl, rfl, rfl⟩

theorem abs_tanh_lt_one (t : ℝ) : |Real.tanh t| < 1 := by
  rw [Real.tanh_eq_sinh_div_cosh, abs_div,
    abs_of_pos (Real.cosh_pos t), div_lt_one (Real.cosh_pos t), abs_lt]
  constructor
  · have h := Real.sinh_lt_cosh (-t)
    rw [Real.sinh_neg, Real.cosh_neg] at h
    linarith
  · exact Real.sinh_lt_cosh t

/-- C9: every baseband sample the driver feeds to the modulator is strictly
bounded — it is the lowpass-filtered noise passed through `tanh`, so
`|x[i]| < 1` for every i, satisfying the spec's bounded-input hypothesis. -/
theorem c9_driver_input_bounded (w : ℕ → ℝ) (i : ℕ) :
    |driver_x w i| < 1 :=
  abs_tanh_lt_one (w i)

/-- C10: the driver's `-t` option accepts exactly `"dsb"`, `"usb"` and
`"lsb"`, mapped to DoubleSideband, UpperSideband and LowerSideband; any
other argument makes the program return exit status 1 (before any modem
object is created). -/
theorem c10_type_option_parsing :
    handle_type_option "dsb" = Except.ok AmType.DSB ∧
    handle_type_option "usb" = Except.ok AmType.USB ∧
    handle_type_option "lsb" = Except.ok AmType.LSB ∧
    ∀ s : String, s ≠ "dsb" → s ≠ "usb" → s ≠ "lsb" →
      handle_type_option s = Except.error 1 := by
  refine ⟨rfl, rfl, rfl, ?_⟩
  intro s h1 h2 h3
  unfold handle_type_option
  rw [if_neg h1, if_neg h2, if_neg h3]

/-- Witness for C10: the rejected argument `"am"` yields exit status 1. -/
theorem c10_type_option_parsing_witness :
    handle_type_option "am" = Except.error 1 :=
  c10_type_option_parsing.2.2.2 "am" (by decide) (by decide) (by decide)
